import Mathlib

/-!
Verification of the BudgetBot expense-tracking assistant.

This file gives a shallow embedding of the repository's core:
the SQLite-backed ledger store (`database.py`) and the aiogram-based
conversation state machine for the add-expense flow (`main.py`,
`states.py`), and proves the specification's claims about them.

Modelling conventions:
  - Python floats are modelled as rationals (ℚ).  The amount parser
    `pyFloatParse` models `float(text)` only on ASCII decimal literals
    (optional sign, digits, optional fraction and exponent, surrounding
    ASCII whitespace), with the literal's exact rational value.  The
    rest of `float()` is outside the model: the spellings inf/nan,
    digit underscores, Unicode digits and whitespace, and IEEE-754
    double rounding (under which e.g. "1e-400" underflows to 0.0 and
    "1e400" overflows to infinity, changing the sign class of the
    value).  Statements quantifying over arbitrary amount texts are
    therefore not settled against this parser.
  - SQL timestamps are modelled as natural numbers (seconds); the
    source stores them as fixed-format text whose lexicographic order
    agrees with chronological order.
  - A raised Python exception (sqlite3 errors, NOT NULL violations) is
    modelled by an `Option`-valued result being `none`; an aiogram
    handler that raises terminates without executing its remaining
    statements, which the embedding reflects by returning the state
    reached at the raise point.
  - SQL queries whose row order is not fully determined by their
    ORDER BY clause are embedded relationally: a predicate describes
    the set of result lists the query may return.
-/

-- The Batteries rational operations are marked irreducible, which keeps
-- `decide` from evaluating concrete arithmetic; restore the default
-- reducibility for this development (proofs still go through the kernel).
attribute [local semireducible] Rat.add Rat.mul Rat.inv Rat.sub Rat.ofScientific

/-- A row of the `categories` table: id (INTEGER PRIMARY KEY), unique name, icon. -/
structure Category where
  id : Nat
  name : String
  icon : String
deriving DecidableEq

/-- A row of the `expenses` table (`database.py`, `_create_tables`).
The `created_at` column is never read by the code and is elided. -/
structure Expense where
  id : Nat
  user_id : Nat
  amount : ℚ
  category_id : Nat
  description : Option String
  date : Nat
deriving DecidableEq

/-- A row of the `users` table. -/
structure UserRow where
  user_id : Nat
  username : Option String
  first_name : Option String
  last_name : Option String
deriving DecidableEq

/-- The ledger store state: the three tables plus the next AUTOINCREMENT
id for `expenses` (SQLite row ids start at 1). -/
structure LedgerDB where
  users : List UserRow
  categories : List Category
  expenses : List Expense
  nextExpenseId : Nat
deriving DecidableEq

/-- The default category set seeded by `_create_tables`, with the
AUTOINCREMENT ids they receive on a fresh database. -/
def defaultCategories : List Category :=
  [⟨1, "Food", "🍔"⟩, ⟨2, "Transport", "🚌"⟩, ⟨3, "Shopping", "🛍️"⟩,
   ⟨4, "Entertainment", "🎮"⟩, ⟨5, "Bills", "📄"⟩, ⟨6, "Health", "💊"⟩,
   ⟨7, "Other", "📦"⟩]

/-- A freshly initialized database: seeded categories, no users, no expenses. -/
def initialDB : LedgerDB := ⟨[], defaultCategories, [], 1⟩

/-- Embeds `Database.get_user`: SELECT * FROM users WHERE user_id = ?. -/
def get_user (db : LedgerDB) (uid : Nat) : Option UserRow :=
  db.users.find? (fun u => u.user_id == uid)

/-- Embeds `Database.add_user`: INSERT ... ON CONFLICT(user_id) DO UPDATE SET
each name field to COALESCE(new, old). -/
def add_user (db : LedgerDB) (uid : Nat) (un fn ln : Option String) : LedgerDB :=
  match get_user db uid with
  | none => { db with users := db.users ++ [⟨uid, un, fn, ln⟩] }
  | some _ =>
      { db with users := db.users.map (fun u =>
          if u.user_id == uid then
            ⟨uid, un.orElse (fun _ => u.username), fn.orElse (fun _ => u.first_name),
              ln.orElse (fun _ => u.last_name)⟩
          else u) }

/-- Embeds `Database.get_category`: SELECT * FROM categories WHERE id = ?.
The caller in `main.py` passes `user_data.get("selected_category_id")`,
which may be Python `None`; binding NULL into `id = ?` matches no row,
hence the `Option Nat` argument. -/
def get_category (db : LedgerDB) (cid : Option Nat) : Option Category :=
  match cid with
  | none => none
  | some i => db.categories.find? (fun c => c.id == i)

/-- Embeds `Database.add_expense`: INSERT INTO expenses
(user_id, amount, category_id, description, date) VALUES (?, ?, ?, ?, ?),
returning `cursor.lastrowid`.  There is no amount validation in this
function.  The `amount` and `category_id` columns are NOT NULL, so
binding a missing value makes the INSERT raise sqlite3.IntegrityError,
modelled by `none`; `ok = false` models a raised sqlite3 I/O error
(the write failing), which also surfaces as an exception, not as a
return value. -/
def add_expense (ok : Bool) (db : LedgerDB) (uid : Nat) (amount : Option ℚ)
    (category_id : Option Nat) (description : Option String) (date : Nat) :
    Option (LedgerDB × Nat) :=
  match ok, amount, category_id with
  | true, some a, some c =>
      some ({ db with
                expenses := db.expenses ++ [⟨db.nextExpenseId, uid, a, c, description, date⟩],
                nextExpenseId := db.nextExpenseId + 1 },
            db.nextExpenseId)
  | _, _, _ => none

/-! ### The recent-expenses query (`Database.get_user_expenses`) -/

/-- A result row of `get_user_expenses`: SELECT e.id, e.amount, e.date,
e.description, c.name as category_name, c.icon as category_icon. -/
structure RecentRow where
  id : Nat
  amount : ℚ
  date : Nat
  description : Option String
  category_name : String
  category_icon : String
deriving DecidableEq

/-- The WHERE e.user_id = ? filter of `get_user_expenses`. -/
def userExpenses (db : LedgerDB) (uid : Nat) : List Expense :=
  db.expenses.filter (fun e => e.user_id == uid)

/-- The JOIN categories c ON e.category_id = c.id step: an expense row
joins with the first category matching its category id, and is dropped
from the result if none matches. -/
def joinRow (db : LedgerDB) (e : Expense) : Option RecentRow :=
  match db.categories.find? (fun c => c.id == e.category_id) with
  | some c => some ⟨e.id, e.amount, e.date, e.description, c.name, c.icon⟩
  | none => none

/-- The joined rows of the user's expenses, in table order. -/
def joinedExpenses (db : LedgerDB) (uid : Nat) : List RecentRow :=
  (userExpenses db uid).filterMap (joinRow db)

/-- Relational semantics of `get_user_expenses`: the query ends with
ORDER BY e.date DESC LIMIT ?, so a valid result is any prefix of length
at most `limit` of a permutation of the joined rows that is sorted by
date descending.  The ORDER BY clause names only `e.date`; the order of
rows with equal dates is not determined by the query. -/
def validRecentResult (db : LedgerDB) (uid limit : Nat) (res : List RecentRow) : Prop :=
  ∃ l : List RecentRow, l.Perm (joinedExpenses db uid) ∧
    l.Pairwise (fun a b => b.date ≤ a.date) ∧ res = l.take limit

/-! ### The statistics query (`Database.get_user_expense_stats`) -/

/-- A row of the per-category aggregation: SELECT c.name, c.icon,
SUM(e.amount) as category_total. -/
structure CatStat where
  category_name : String
  category_icon : String
  category_total : ℚ
deriving DecidableEq

/-- The dictionary returned by `get_user_expense_stats`. -/
structure StatsResult where
  total_spending : ℚ
  category_spending : List CatStat
  period_days : Nat
deriving DecidableEq

/-- The expenses of the user falling in the BETWEEN window (inclusive
on both ends, as SQL BETWEEN is). -/
def windowExpenses (db : LedgerDB) (uid startD endD : Nat) : List Expense :=
  db.expenses.filter (fun e => e.user_id == uid && startD ≤ e.date && e.date ≤ endD)

/-- The first query of `get_user_expense_stats`: SELECT SUM(amount) over
the window; SUM of no rows is NULL, turned into 0.0 by `or 0.0`. -/
def total_spending (db : LedgerDB) (uid startD endD : Nat) : ℚ :=
  ((windowExpenses db uid startD endD).map (fun e => e.amount)).sum

/-- The per-category subtotal SUM(e.amount) for one category id. -/
def catTotal (db : LedgerDB) (uid startD endD cid : Nat) : ℚ :=
  (((windowExpenses db uid startD endD).filter (fun e => e.category_id == cid)).map
    (fun e => e.amount)).sum

/-- The categories producing a group under GROUP BY c.id: those joined
by at least one window expense of the user. -/
def activeCategories (db : LedgerDB) (uid startD endD : Nat) : List Category :=
  db.categories.filter (fun c => (windowExpenses db uid startD endD).any
    (fun e => e.category_id == c.id))

/-- The groups of the second query, one per active category, in table
order (before the ORDER BY is applied). -/
def canonicalCatStats (db : LedgerDB) (uid startD endD : Nat) : List CatStat :=
  (activeCategories db uid startD endD).map
    (fun c => ⟨c.name, c.icon, catTotal db uid startD endD c.id⟩)

/-- Relational semantics of `get_user_expense_stats`: the window is
`[now - days·86400, now]` (datetime.timedelta(days=days) is exact);
`category_spending` is some permutation of the groups sorted by
category_total descending (ORDER BY category_total DESC fixes nothing
more); `period_days` is echoed back. -/
def get_user_expense_stats_valid (db : LedgerDB) (uid now days : Nat)
    (r : StatsResult) : Prop :=
  r.total_spending = total_spending db uid (now - days * 86400) now ∧
  (∃ l : List CatStat, l.Perm (canonicalCatStats db uid (now - days * 86400) now) ∧
    l.Pairwise (fun a b => b.category_total ≤ a.category_total) ∧
    r.category_spending = l) ∧
  r.period_days = days

/-! ### The amount parser: Python `float(text)` on decimal literals -/

/-- The ASCII whitespace characters `float` strips from both ends. -/
def isPySpace (c : Char) : Bool :=
  c == ' ' || c == '\t' || c == '\n' || c == '\r' || c == '\x0b' || c == '\x0c'

/-- Strip leading and trailing whitespace from a character list. -/
def stripChars (cs : List Char) : List Char :=
  ((cs.dropWhile isPySpace).reverse.dropWhile isPySpace).reverse

/-- The natural number denoted by a list of decimal digit characters. -/
def digitsVal (ds : List Char) : Nat :=
  ds.foldl (fun n c => 10 * n + (c.toNat - 48)) 0

/-- Split a maximal run of leading decimal digits off a character list. -/
def takeDigits (cs : List Char) : List Char × List Char :=
  (cs.takeWhile Char.isDigit, cs.dropWhile Char.isDigit)

/-- Parse an optional exponent part (e or E, optional sign, digits) that
must consume the whole remaining input; no exponent denotes 0. -/
def parseExp : List Char → Option Int
  | [] => some 0
  | c :: cs =>
      if c == 'e' || c == 'E' then
        let sr : Int × List Char :=
          match cs with
          | '+' :: t => (1, t)
          | '-' :: t => (-1, t)
          | t => (1, t)
        let dr := takeDigits sr.2
        if dr.1.isEmpty || !dr.2.isEmpty then none
        else some (sr.1 * (digitsVal dr.1 : Int))
      else none

/-- Parse the mantissa: digits with an optional decimal point, at least
one digit overall.  Returns the digit string's value, the number of
fraction digits, and the unconsumed rest. -/
def parseMantissa (cs : List Char) : Option (Nat × Nat × List Char) :=
  let ir := takeDigits cs
  match ir.2 with
  | '.' :: r₂ =>
      let fr := takeDigits r₂
      if ir.1.isEmpty && fr.1.isEmpty then none
      else some (digitsVal (ir.1 ++ fr.1), fr.1.length, fr.2)
  | _ => if ir.1.isEmpty then none else some (digitsVal ir.1, 0, ir.2)

/-- Partial model of Python `float(text)`: on ASCII decimal literals it
returns the literal's exact rational value, and `none` stands for a
ValueError.  CPython's `float()` accepts more (inf/nan spellings, digit
underscores, Unicode digits and whitespace) and rounds the value to an
IEEE-754 double, whose underflow and overflow can change the sign class
of extreme literals; those behaviors are not modelled, so this function
under-approximates the set of accepted texts and idealizes the value.
It is used here only to drive the state machine on ordinary in-range
literals, where it coincides with `float()` up to rounding that
preserves the sign. -/
def pyFloatParse (s : String) : Option ℚ :=
  let cs := stripChars s.toList
  let sr : Int × List Char :=
    match cs with
    | '+' :: t => (1, t)
    | '-' :: t => (-1, t)
    | t => (1, t)
  match parseMantissa sr.2 with
  | none => none
  | some mr =>
      match parseExp mr.2.2 with
      | none => none
      | some e => some (((sr.1 * (mr.1 : Int) : Int) : ℚ) * (10 : ℚ) ^ (e - (mr.2.1 : Int)))

example : pyFloatParse "12.50" = some (25 / 2 : ℚ) := by decide
example : pyFloatParse "  10.5 " = some (21 / 2 : ℚ) := by decide
example : pyFloatParse "-3" = some (-3 : ℚ) := by decide
example : pyFloatParse "1e2" = some (100 : ℚ) := by decide
example : pyFloatParse "abc" = none := by decide
example : pyFloatParse "-" = none := by decide
example : pyFloatParse "" = none := by decide
example : pyFloatParse "5." = some (5 : ℚ) := by decide
example : pyFloatParse ".5" = some (1 / 2 : ℚ) := by decide
example : pyFloatParse "1 2" = none := by decide
example : pyFloatParse "1e" = none := by decide

/-! ### The conversation state machine (`states.py`, `main.py`) -/

/-- The FSM steps of `ExpenseStates` plus the aiogram default state
(`none`, no flow in progress). -/
inductive Step where
  | none
  | awaitingCategory
  | awaitingAmount
  | awaitingDescription
  | awaitingConfirmation
deriving DecidableEq

/-- The FSM data dictionary, observed through `user_data.get(key)`:
each field is `none` when the key is absent or was stored as Python
`None` (the two are indistinguishable to every reader in `main.py`). -/
structure PendingData where
  selected_category_id : Option Nat
  amount : Option ℚ
  description : Option String
deriving DecidableEq

/-- The empty FSM data dictionary. -/
def emptyPending : PendingData := ⟨none, none, none⟩

/-- A user's conversation state: the current step and the data dictionary. -/
structure ConvState where
  step : Step
  data : PendingData
deriving DecidableEq

/-- The messages and button sets the handlers send back (transport
rendering elided; only the shape relevant to the claims is kept). -/
inductive Reply where
  | welcomeBack
  | welcomeNew
  | categoryPrompt
  | amountPrompt
  | validationAmountPositive
  | validationAmountInvalid
  | descriptionPrompt
  | categoryNotFound
  | confirmPrompt (c : Category) (amount : ℚ) (description : Option String)
  | cancelledAdd
  | cancelledConfirm
  | saveSuccess (amount : Option ℚ) (description : Option String)
  | saveFailed
  | raisedError
deriving DecidableEq

/-- Embeds `cmd_start`: upsert the user on first contact, greet a known
user without writing. -/
def cmd_start (db : LedgerDB) (uid : Nat) (un fn ln : Option String) :
    LedgerDB × Reply :=
  match get_user db uid with
  | some _ => (db, .welcomeBack)
  | none => (add_user db uid un fn ln, .welcomeNew)

/-- Embeds `cmd_add_expense`: `state.set_state(waiting_for_category)`.
`set_state` changes only the step; the data dictionary is not cleared.
The category keyboard it sends is elided (pure output). -/
def cmd_add_expense (st : ConvState) : ConvState × Reply :=
  (⟨.awaitingCategory, st.data⟩, .categoryPrompt)

/-- Embeds `process_category_selection`: store the id parsed from the
callback token, move to `waiting_for_amount`.  The function takes no
database argument because the source consults no storage here: the
supplied id is not checked for existence. -/
def process_category_selection (st : ConvState) (category_id : Nat) :
    ConvState × Reply :=
  (⟨.awaitingAmount, { st.data with selected_category_id := some category_id }⟩,
   .amountPrompt)

/-- Embeds `cancel_add_expense_operation`: the handler edits the message
but touches no FSM state (its own comment notes the state would have to
be cleared here). -/
def cancel_add_expense_operation (st : ConvState) : ConvState × Reply :=
  (st, .cancelledAdd)

/-- Embeds `process_amount_input`: `float(text)`; ValueError or a value
≤ 0 re-prompts without touching state, otherwise the amount is stored
and the step becomes `waiting_for_description`. -/
def process_amount_input (st : ConvState) (text : String) : ConvState × Reply :=
  match pyFloatParse text with
  | some a =>
      if a ≤ 0 then (st, .validationAmountPositive)
      else (⟨.awaitingDescription, { st.data with amount := some a }⟩,
            .descriptionPrompt)
  | none => (st, .validationAmountInvalid)

/-- Embeds `process_description_input`: `-` skips the description,
anything else is stored verbatim; then the pending category is looked
up for display, aborting the flow (`state.clear()`) when it is gone;
otherwise the step becomes `confirming_expense`.  The source formats
the pending amount into the summary after `set_state`; a missing amount
would raise there, after the state change, which the `raisedError`
reply records. -/
def process_description_input (db : LedgerDB) (st : ConvState) (text : String) :
    ConvState × Reply :=
  let description : Option String := if text = "-" then none else some text
  let d1 : PendingData := { st.data with description := description }
  match get_category db d1.selected_category_id with
  | none => (⟨.none, emptyPending⟩, .categoryNotFound)
  | some c =>
      match d1.amount with
      | some a => (⟨.awaitingConfirmation, d1⟩, .confirmPrompt c a description)
      | none => (⟨.awaitingConfirmation, d1⟩, .raisedError)

/-- Embeds `confirm_expense_handler`.  The router attaches no state
filter to it, so it runs in every step.  It reads the pending fields,
calls `add_expense`, answers success when the returned id is truthy and
failure otherwise, and then clears the state.  When `add_expense`
raises (`none`: NOT NULL violation on a missing field, or `ok = false`
for a store I/O failure), the handler aborts before `state.clear()`,
leaving the database and the conversation state untouched. -/
def confirm_expense_handler (ok : Bool) (db : LedgerDB) (st : ConvState)
    (uid : Nat) (now : Nat) : LedgerDB × ConvState × Reply :=
  match add_expense ok db uid st.data.amount st.data.selected_category_id
      st.data.description now with
  | some (db', eid) =>
      if eid ≠ 0 then
        (db', ⟨.none, emptyPending⟩, .saveSuccess st.data.amount st.data.description)
      else
        (db', ⟨.none, emptyPending⟩, .saveFailed)
  | none => (db, st, .raisedError)

/-- Embeds `cancel_confirm_expense_handler`: `state.clear()`. -/
def cancel_confirm_expense_handler (_st : ConvState) : ConvState × Reply :=
  (⟨.none, emptyPending⟩, .cancelledConfirm)

/-! ### The dispatcher (one user's conversation against the shared store) -/

/-- The whole system state for one user: the shared ledger store plus
that user's conversation state.  aiogram's FSM storage keys the state
by user, so a user has exactly one `ConvState` record by construction. -/
structure Sys where
  db : LedgerDB
  conv : ConvState
deriving DecidableEq

/-- The inbound actions of §6 of the specification, with the
environment's contribution (does the store write succeed, what is the
clock) carried on the action. -/
inductive UserAction where
  | startCmd (un fn ln : Option String)
  | addCmd
  | selectCategory (category_id : Nat)
  | cancelAdd
  | freeText (text : String)
  | confirmPress (ok : Bool) (now : Nat)
  | cancelConfirmPress

/-- The dispatcher: routes an action the way the aiogram routers do.
Commands match in any step; the two text handlers carry the state
filters `waiting_for_amount` and `waiting_for_description`, so free
text in any other step matches no handler; the three callback handlers
carry no state filter and match in any step. -/
def handle (uid : Nat) (a : UserAction) (s : Sys) : Sys :=
  match a with
  | .startCmd un fn ln => { s with db := (cmd_start s.db uid un fn ln).1 }
  | .addCmd => { s with conv := (cmd_add_expense s.conv).1 }
  | .selectCategory cid => { s with conv := (process_category_selection s.conv cid).1 }
  | .cancelAdd => { s with conv := (cancel_add_expense_operation s.conv).1 }
  | .freeText t =>
      match s.conv.step with
      | .awaitingAmount => { s with conv := (process_amount_input s.conv t).1 }
      | .awaitingDescription =>
          { s with conv := (process_description_input s.db s.conv t).1 }
      | _ => s
  | .confirmPress ok now =>
      let r := confirm_expense_handler ok s.db s.conv uid now
      { s with db := r.1, conv := r.2.1 }
  | .cancelConfirmPress => { s with conv := (cancel_confirm_expense_handler s.conv).1 }

/-- The freshly started system: seeded store, no flow in progress. -/
def sys0 : Sys := ⟨initialDB, ⟨.none, emptyPending⟩⟩

/-- The states one user's conversation can reach from a fresh start. -/
inductive Reachable (uid : Nat) : Sys → Prop where
  | init : Reachable uid sys0
  | step : ∀ {s : Sys}, Reachable uid s → ∀ a : UserAction, Reachable uid (handle uid a s)

/-- The state-machine invariant: a pending amount is always positive,
a cleared step has an empty data dictionary, and every committed
expense row has a positive amount. -/
def SysInv (s : Sys) : Prop :=
  (∀ a : ℚ, s.conv.data.amount = some a → 0 < a) ∧
  (s.conv.step = .none → s.conv.data = emptyPending) ∧
  (∀ e ∈ s.db.expenses, 0 < e.amount)

/-! ### Invariant preservation -/

theorem add_user_expenses (db : LedgerDB) (uid : Nat) (un fn ln : Option String) :
    (add_user db uid un fn ln).expenses = db.expenses := by
  unfold add_user
  cases get_user db uid <;> rfl

theorem cmd_start_expenses (db : LedgerDB) (uid : Nat) (un fn ln : Option String) :
    (cmd_start db uid un fn ln).1.expenses = db.expenses := by
  unfold cmd_start
  cases get_user db uid
  · exact add_user_expenses ..
  · rfl

theorem process_description_conv (db : LedgerDB) (st : ConvState) (t : String) :
    (process_description_input db st t).1 = ⟨.none, emptyPending⟩ ∨
    (process_description_input db st t).1 =
      ⟨.awaitingConfirmation,
        { st.data with description := if t = "-" then none else some t }⟩ := by
  unfold process_description_input
  dsimp only
  split
  · exact Or.inl rfl
  · split
    · exact Or.inr rfl
    · exact Or.inr rfl

theorem sysInv_handle (uid : Nat) (a : UserAction) {s : Sys} (h : SysInv s) :
    SysInv (handle uid a s) := by
  obtain ⟨hamt, hnone, hpos⟩ := h
  cases a with
  | startCmd un fn ln =>
      exact ⟨hamt, hnone, by simpa [handle, cmd_start_expenses] using hpos⟩
  | addCmd =>
      exact ⟨hamt, by simp [handle, cmd_add_expense], hpos⟩
  | selectCategory cid =>
      exact ⟨hamt, by simp [handle, process_category_selection], hpos⟩
  | cancelAdd =>
      exact ⟨hamt, hnone, hpos⟩
  | freeText t =>
      cases hstep : s.conv.step with
      | awaitingAmount =>
          simp only [handle, hstep]
          cases hp : pyFloatParse t with
          | none =>
              simp only [process_amount_input, hp]
              exact ⟨hamt, by simp [hstep], hpos⟩
          | some a =>
              by_cases hle : a ≤ 0
              · simp only [process_amount_input, hp, if_pos hle]
                exact ⟨hamt, by simp [hstep], hpos⟩
              · simp only [process_amount_input, hp, if_neg hle]
                refine ⟨?_, by simp, hpos⟩
                intro x hx
                cases hx
                exact lt_of_not_le hle
      | awaitingDescription =>
          simp only [handle, hstep]
          rcases process_description_conv s.db s.conv t with hres | hres <;> rw [hres]
          · exact ⟨by simp [emptyPending], fun _ => rfl, hpos⟩
          · exact ⟨hamt, by simp, hpos⟩
      | none => simpa only [handle, hstep] using ⟨hamt, hnone, hpos⟩
      | awaitingCategory => simpa only [handle, hstep] using ⟨hamt, hnone, hpos⟩
      | awaitingConfirmation => simpa only [handle, hstep] using ⟨hamt, hnone, hpos⟩
  | confirmPress ok now =>
      simp only [handle]
      unfold confirm_expense_handler add_expense
      cases ok with
      | false => exact ⟨hamt, hnone, hpos⟩
      | true =>
          cases hA : s.conv.data.amount with
          | none =>
              cases s.conv.data.selected_category_id with
              | none => exact ⟨by simp [hA], hnone, hpos⟩
              | some c => exact ⟨by simp [hA], hnone, hpos⟩
          | some a =>
              cases s.conv.data.selected_category_id with
              | none => exact ⟨by simpa [hA] using hamt, hnone, hpos⟩
              | some c =>
                  have hrow : ∀ e ∈ s.db.expenses ++
                      [⟨s.db.nextExpenseId, uid, a, c, s.conv.data.description, now⟩],
                      0 < e.amount := by
                    intro e he
                    rcases List.mem_append.mp he with h | h
                    · exact hpos e h
                    · simp only [List.mem_singleton] at h
                      subst h
                      exact hamt a hA
                  by_cases hid : s.db.nextExpenseId ≠ 0
                  · simp only [if_pos hid]
                    exact ⟨by simp [emptyPending], fun _ => rfl, hrow⟩
                  · simp only [if_neg hid]
                    exact ⟨by simp [emptyPending], fun _ => rfl, hrow⟩
  | cancelConfirmPress =>
      exact ⟨by simp [handle, cancel_confirm_expense_handler, emptyPending],
        fun _ => rfl, hpos⟩

theorem reachable_sysInv {uid : Nat} {s : Sys} (h : Reachable uid s) : SysInv s := by
  induction h with
  | init =>
      refine ⟨?_, fun _ => rfl, ?_⟩
      · intro a ha
        simp [sys0, emptyPending] at ha
      · intro e he
        simp [sys0, initialDB] at he
  | step _ a ih => exact sysInv_handle _ a ih

/-! ### Claim C1 -/

/-- Claim C1 counterexample: calling `add_expense` with amount 0 (≤ 0)
does not fail — it returns an id and commits a row whose amount is 0.
The positivity check the claim attributes to `record_expense` does not
exist in `Database.add_expense`. -/
theorem c1_counterexample :
    (0 : ℚ) ≤ 0 ∧
    (add_expense true initialDB 1 (some 0) (some 1) none 5).isSome = true ∧
    (add_expense true initialDB 1 (some 0) (some 1) none 5).map
      (fun r => r.1.expenses.map (fun e => e.amount)) = some [0] := by
  decide

/-- Claim C1 (amended): `add_expense` performs no amount validation —
an insert with non-null amount and category always succeeds, whatever
the amount's sign; positivity is enforced earlier, by
`process_amount_input`, so every expense row committed through the
conversation flow (any reachable system state) has amount > 0. -/
theorem c1_flow_amounts_positive :
    (∀ (db : LedgerDB) (uid : Nat) (a : ℚ) (cid : Nat) (d : Option String) (t : Nat),
        (add_expense true db uid (some a) (some cid) d t).isSome = true) ∧
    (∀ (uid : Nat) (s : Sys), Reachable uid s → ∀ e ∈ s.db.expenses, 0 < e.amount) := by
  constructor
  · intro db uid a cid d t
    rfl
  · intro uid s hs
    exact (reachable_sysInv hs).2.2

/-- A concrete run of the flow: /add, select Food, amount "12.50",
skip the description, confirm with the store write succeeding. -/
def sysRun : Sys :=
  handle 1 (.confirmPress true 50)
    (handle 1 (.freeText "-")
      (handle 1 (.freeText "12.50")
        (handle 1 (.selectCategory 1)
          (handle 1 .addCmd sys0))))

theorem sysRun_reachable : Reachable 1 sysRun :=
  ((((Reachable.init.step .addCmd).step (.selectCategory 1)).step
      (.freeText "12.50")).step (.freeText "-")).step (.confirmPress true 50)

/-- Witness for C1: the concrete run commits exactly one expense, of
12.50 in category 1 with no description, clears the conversation state,
and the positivity conclusion holds for it. -/
theorem c1_witness :
    sysRun.db.expenses = [⟨1, 1, 25 / 2, 1, none, 50⟩] ∧
    sysRun.conv = ⟨.none, emptyPending⟩ ∧
    (add_expense true initialDB 1 (some (25 / 2)) (some 1) none 50).isSome = true ∧
    (∀ e ∈ sysRun.db.expenses, 0 < e.amount) :=
  ⟨by decide, by decide,
   c1_flow_amounts_positive.1 initialDB 1 (25 / 2) 1 none 50,
   c1_flow_amounts_positive.2 1 sysRun sysRun_reachable⟩

/-! ### Claim C2 -/

/-- Claim C2: in any reachable state whose conversation step is `none`,
a `ConfirmExpense` press changes nothing: the step-`none` invariant
gives an empty data dictionary, so `add_expense` is called with NULL
amount and category, the NOT NULL constraint raises, and the handler
aborts before creating a row or touching the state. -/
theorem c2_stale_confirm_noop (uid : Nat) (s : Sys) (hs : Reachable uid s)
    (hstep : s.conv.step = .none) (ok : Bool) (now : Nat) :
    handle uid (.confirmPress ok now) s = s := by
  have hdata : s.conv.data = emptyPending := (reachable_sysInv hs).2.1 hstep
  simp only [handle]
  unfold confirm_expense_handler add_expense
  rw [hdata]
  cases ok <;> rfl

/-- Witness for C2 at the fresh system state. -/
theorem c2_witness :
    sys0.conv.step = .none ∧ handle 1 (.confirmPress true 7) sys0 = sys0 :=
  ⟨rfl, c2_stale_confirm_noop 1 sys0 Reachable.init rfl true 7⟩

/-! ### Claim C3 -/

/-- Claim C3: when the ledger write raises during the confirm step
(`ok = false`, the sqlite exception propagates out of `add_expense`
before `state.clear()` is reached), the database and the conversation
state are left exactly as they were — still `awaitingConfirmation` with
all pending fields — and a later re-confirm commits the expense with
those same fields, without re-entering category, amount or description. -/
theorem c3_write_failure_keeps_state (db : LedgerDB) (st : ConvState)
    (uid now now' : Nat) (_hstep : st.step = .awaitingConfirmation)
    (a : ℚ) (c : Nat) (ha : st.data.amount = some a)
    (hc : st.data.selected_category_id = some c) :
    confirm_expense_handler false db st uid now = (db, st, .raisedError) ∧
    (confirm_expense_handler true db st uid now').1.expenses
      = db.expenses ++ [⟨db.nextExpenseId, uid, a, c, st.data.description, now'⟩] ∧
    (confirm_expense_handler true db st uid now').2.1 = ⟨.none, emptyPending⟩ := by
  unfold confirm_expense_handler add_expense
  rw [ha, hc]
  dsimp only
  refine ⟨rfl, ?_⟩
  by_cases h0 : db.nextExpenseId ≠ 0
  · rw [if_pos h0]
    exact ⟨rfl, rfl⟩
  · rw [if_neg h0]
    exact ⟨rfl, rfl⟩

/-- Witness for C3 at a concrete pre-commit state. -/
theorem c3_witness :
    (⟨.awaitingConfirmation, ⟨some 2, some 10, some "taxi"⟩⟩ : ConvState).step
      = .awaitingConfirmation ∧
    confirm_expense_handler false initialDB
        ⟨.awaitingConfirmation, ⟨some 2, some 10, some "taxi"⟩⟩ 1 77
      = (initialDB, ⟨.awaitingConfirmation, ⟨some 2, some 10, some "taxi"⟩⟩, .raisedError) ∧
    (confirm_expense_handler true initialDB
        ⟨.awaitingConfirmation, ⟨some 2, some 10, some "taxi"⟩⟩ 1 78).1.expenses
      = [⟨1, 1, 10, 2, some "taxi", 78⟩] ∧
    (confirm_expense_handler true initialDB
        ⟨.awaitingConfirmation, ⟨some 2, some 10, some "taxi"⟩⟩ 1 78).2.1
      = ⟨.none, emptyPending⟩ := by
  have h := c3_write_failure_keeps_state initialDB
    ⟨.awaitingConfirmation, ⟨some 2, some 10, some "taxi"⟩⟩ 1 77 78 rfl 10 2 rfl rfl
  exact ⟨rfl, h.1, h.2.1, h.2.2⟩

/-! ### Claim C4 -/

/-- Claim C4 (code-bug evidence): the cancel button rendered with the
category keyboard (`cancel_add_expense`) does not clear the
conversation state — after /add the step is `awaitingCategory`, and
pressing cancel leaves the whole system state unchanged, step included,
where the claim (and the handler's own comment) require the state to be
cleared to `none`. -/
theorem c4_cancel_add_keeps_state :
    (handle 1 .addCmd sys0).conv.step = .awaitingCategory ∧
    handle 1 .cancelAdd (handle 1 .addCmd sys0) = handle 1 .addCmd sys0 ∧
    (handle 1 .cancelAdd (handle 1 .addCmd sys0)).conv.step ≠ .none :=
  ⟨rfl, rfl, by decide⟩

/-! ### Claim C5 -/

/-- Claim C5 counterexample: starting /add over a flow that already
stored an amount yields step `awaitingCategory`, but the pending fields
are carried over — the data dictionary still holds the old amount and
category instead of being empty, because `set_state` does not clear the
FSM data. -/
theorem c5_counterexample :
    (cmd_add_expense ⟨.awaitingDescription, ⟨some 3, some 10, none⟩⟩).1.step
      = .awaitingCategory ∧
    (cmd_add_expense ⟨.awaitingDescription, ⟨some 3, some 10, none⟩⟩).1.data.amount
      = some 10 ∧
    (cmd_add_expense ⟨.awaitingDescription, ⟨some 3, some 10, none⟩⟩).1.data
      ≠ emptyPending := by
  refine ⟨rfl, rfl, ?_⟩
  decide

/-- Claim C5 (amended): /add unconditionally replaces the step with
`awaitingCategory` — the outcome does not depend on the prior step, so
the prior flow is discarded — but the pending data dictionary is kept,
not cleared; stale fields are only overwritten as the new flow
progresses.  (A user still has exactly one `ConversationState` record:
the FSM storage is keyed per user.) -/
theorem c5_add_replaces_step_keeps_data (st st' : ConvState)
    (h : st.data = st'.data) :
    (cmd_add_expense st).1.step = .awaitingCategory ∧
    (cmd_add_expense st).1.data = st.data ∧
    cmd_add_expense st = cmd_add_expense st' := by
  refine ⟨rfl, rfl, ?_⟩
  unfold cmd_add_expense
  rw [h]

/-- Witness for C5: two states differing only in the step map to the
same /add outcome. -/
theorem c5_witness :
    (⟨.awaitingDescription, ⟨some 3, some 10, none⟩⟩ : ConvState).data
      = (⟨.awaitingConfirmation, ⟨some 3, some 10, none⟩⟩ : ConvState).data ∧
    (cmd_add_expense ⟨.awaitingDescription, ⟨some 3, some 10, none⟩⟩).1.step
      = .awaitingCategory ∧
    (cmd_add_expense ⟨.awaitingDescription, ⟨some 3, some 10, none⟩⟩).1.data
      = (⟨.awaitingDescription, ⟨some 3, some 10, none⟩⟩ : ConvState).data ∧
    cmd_add_expense ⟨.awaitingDescription, ⟨some 3, some 10, none⟩⟩
      = cmd_add_expense ⟨.awaitingConfirmation, ⟨some 3, some 10, none⟩⟩ :=
  ⟨rfl,
    (c5_add_replaces_step_keeps_data _ _ rfl).1,
    (c5_add_replaces_step_keeps_data ⟨.awaitingDescription, ⟨some 3, some 10, none⟩⟩
      ⟨.awaitingConfirmation, ⟨some 3, some 10, none⟩⟩ rfl).2.1,
    (c5_add_replaces_step_keeps_data ⟨.awaitingDescription, ⟨some 3, some 10, none⟩⟩
      ⟨.awaitingConfirmation, ⟨some 3, some 10, none⟩⟩ rfl).2.2⟩

/-! ### Claim C10 -/

/-- Claim C10: selecting a category stores the supplied id and moves to
`awaitingAmount` for any id whatsoever — `process_category_selection`
takes no database argument because the source consults no storage
there — and an id matching no category is only caught later, at the
description step's `get_category` lookup, which aborts the flow to
`none`. -/
theorem c10_category_not_validated (db : LedgerDB) (st st' : ConvState)
    (cid : Nat) (t : String)
    (hsel : st'.data.selected_category_id = some cid)
    (habsent : ∀ c ∈ db.categories, c.id ≠ cid) :
    process_category_selection st cid
      = (⟨.awaitingAmount, { st.data with selected_category_id := some cid }⟩,
         .amountPrompt) ∧
    (process_description_input db st' t).1 = ⟨.none, emptyPending⟩ := by
  refine ⟨rfl, ?_⟩
  unfold process_description_input
  dsimp only
  rw [hsel]
  have hfind : db.categories.find? (fun c => c.id == cid) = none := by
    apply List.find?_eq_none.mpr
    intro c hc
    simpa using habsent c hc
  simp only [get_category, hfind]

/-- Witness for C10: selecting the non-existent category id 99 on the
seeded store succeeds, and the description step then aborts the flow. -/
theorem c10_witness :
    (⟨.awaitingDescription, ⟨some 99, some 5, none⟩⟩ : ConvState).data.selected_category_id
      = some 99 ∧
    (∀ c ∈ initialDB.categories, c.id ≠ 99) ∧
    process_category_selection ⟨.awaitingCategory, emptyPending⟩ 99
      = (⟨.awaitingAmount, ⟨some 99, none, none⟩⟩, .amountPrompt) ∧
    (process_description_input initialDB
        ⟨.awaitingDescription, ⟨some 99, some 5, none⟩⟩ "x").1 = ⟨.none, emptyPending⟩ := by
  have h := c10_category_not_validated initialDB ⟨.awaitingCategory, emptyPending⟩
    ⟨.awaitingDescription, ⟨some 99, some 5, none⟩⟩ 99 "x" rfl (by decide)
  exact ⟨rfl, by decide, h.1, h.2⟩

/-! ### Claim C7 -/

/-- Claim C7: at the AwaitingDescription step, the skip marker `-`
stores an absent description and any other text is stored verbatim;
then, if the pending category id no longer resolves, the flow aborts to
`none` (cleared data) with an error, and otherwise the step becomes
AwaitingConfirmation with the summary showing the looked-up category. -/
theorem c7_description_step (db : LedgerDB) (st : ConvState) (t : String)
    (_hstep : st.step = .awaitingDescription) :
    (get_category db st.data.selected_category_id = none →
        process_description_input db st t
          = (⟨.none, emptyPending⟩, .categoryNotFound)) ∧
    (∀ c : Category, get_category db st.data.selected_category_id = some c →
      ∀ a : ℚ, st.data.amount = some a →
        process_description_input db st t
          = (⟨.awaitingConfirmation,
              { st.data with description := if t = "-" then none else some t }⟩,
             .confirmPrompt c a (if t = "-" then none else some t))) := by
  constructor
  · intro hnone
    unfold process_description_input
    simp only [hnone]
  · intro c hc a ha
    unfold process_description_input
    simp only [hc, ha]

/-- Witness for C7: skip marker, verbatim text, and the aborting lookup,
each on concrete inputs over the seeded store. -/
theorem c7_witness :
    get_category initialDB (some 1) = some ⟨1, "Food", "🍔"⟩ ∧
    process_description_input initialDB ⟨.awaitingDescription, ⟨some 1, some 5, none⟩⟩ "-"
      = (⟨.awaitingConfirmation, ⟨some 1, some 5, none⟩⟩,
         .confirmPrompt ⟨1, "Food", "🍔"⟩ 5 none) ∧
    process_description_input initialDB ⟨.awaitingDescription, ⟨some 1, some 5, none⟩⟩ "coffee"
      = (⟨.awaitingConfirmation, ⟨some 1, some 5, some "coffee"⟩⟩,
         .confirmPrompt ⟨1, "Food", "🍔"⟩ 5 (some "coffee")) ∧
    get_category initialDB (some 42) = none ∧
    process_description_input initialDB ⟨.awaitingDescription, ⟨some 42, some 5, none⟩⟩ "x"
      = (⟨.none, emptyPending⟩, .categoryNotFound) :=
  ⟨by decide,
   (c7_description_step initialDB ⟨.awaitingDescription, ⟨some 1, some 5, none⟩⟩ "-" rfl).2
     ⟨1, "Food", "🍔"⟩ (by decide) 5 rfl,
   (c7_description_step initialDB ⟨.awaitingDescription, ⟨some 1, some 5, none⟩⟩ "coffee" rfl).2
     ⟨1, "Food", "🍔"⟩ (by decide) 5 rfl,
   by decide,
   (c7_description_step initialDB ⟨.awaitingDescription, ⟨some 42, some 5, none⟩⟩ "x" rfl).1
     (by decide)⟩

/-! ### Claim C8 -/

/-- A store with two expenses of user 7 sharing the same timestamp. -/
def db8 : LedgerDB :=
  ⟨[], [⟨1, "Food", "🍔"⟩],
   [⟨1, 7, 5, 1, none, 100⟩, ⟨2, 7, 6, 1, none, 100⟩], 3⟩

/-- Claim C8 counterexample: the query's ORDER BY names only
`e.date DESC` — with two equal-date rows, the listing that puts the
lower id first is a valid result of the SQL, refuting the claimed
higher-id-first tie-break. -/
theorem c8_counterexample :
    validRecentResult db8 7 2
      [⟨1, 5, 100, none, "Food", "🍔"⟩, ⟨2, 6, 100, none, "Food", "🍔"⟩] ∧
    ¬ (([⟨1, 5, 100, none, "Food", "🍔"⟩, ⟨2, 6, 100, none, "Food", "🍔"⟩] :
        List RecentRow).Pairwise
          (fun a b => b.date < a.date ∨ (b.date = a.date ∧ b.id < a.id))) := by
  constructor
  · exact ⟨[⟨1, 5, 100, none, "Food", "🍔"⟩, ⟨2, 6, 100, none, "Food", "🍔"⟩],
      by decide, by decide, rfl⟩
  · decide

/-- Claim C8 (amended): every valid result of `get_user_expenses` holds
at most `limit` rows, is sorted by date descending, and each row is the
category join of one of that user's expense rows; the relative order of
rows with equal dates is not fixed by the query (there is no id
tie-break in the ORDER BY). -/
theorem c8_recent_listing (db : LedgerDB) (uid limit : Nat)
    (res : List RecentRow) (h : validRecentResult db uid limit res) :
    res.length ≤ limit ∧
    res.Pairwise (fun a b => b.date ≤ a.date) ∧
    ∀ r ∈ res, ∃ e ∈ db.expenses, e.user_id = uid ∧ joinRow db e = some r := by
  obtain ⟨l, hperm, hsort, htake⟩ := h
  subst htake
  refine ⟨?_, ?_, ?_⟩
  · rw [List.length_take]
    exact min_le_left _ _
  · exact List.Pairwise.sublist (List.take_sublist _ _) hsort
  · intro r hr
    have hrl : r ∈ l := List.take_subset _ _ hr
    have hrj : r ∈ joinedExpenses db uid := hperm.mem_iff.mp hrl
    obtain ⟨e, he, hje⟩ := List.mem_filterMap.mp hrj
    have he' := List.mem_filter.mp he
    exact ⟨e, he'.1, by simpa using he'.2, hje⟩

/-- A store realizing the specification's A, B, C example
(three expenses of one user at increasing times). -/
def db8abc : LedgerDB :=
  ⟨[], [⟨1, "Food", "🍔"⟩],
   [⟨1, 7, 1, 1, none, 10⟩, ⟨2, 7, 2, 1, none, 20⟩, ⟨3, 7, 3, 1, none, 30⟩], 4⟩

/-- Witness for C8: `[C, B]` is a valid result for limit 2, and the
amended properties hold for it. -/
theorem c8_witness :
    validRecentResult db8abc 7 2
      [⟨3, 3, 30, none, "Food", "🍔"⟩, ⟨2, 2, 20, none, "Food", "🍔"⟩] ∧
    ([⟨3, 3, 30, none, "Food", "🍔"⟩, ⟨2, 2, 20, none, "Food", "🍔"⟩] :
        List RecentRow).length ≤ 2 ∧
    ([⟨3, 3, 30, none, "Food", "🍔"⟩, ⟨2, 2, 20, none, "Food", "🍔"⟩] :
        List RecentRow).Pairwise (fun a b => b.date ≤ a.date) ∧
    ∀ r ∈ ([⟨3, 3, 30, none, "Food", "🍔"⟩, ⟨2, 2, 20, none, "Food", "🍔"⟩] :
        List RecentRow), ∃ e ∈ db8abc.expenses, e.user_id = 7 ∧ joinRow db8abc e = some r :=
  have hv : validRecentResult db8abc 7 2
      [⟨3, 3, 30, none, "Food", "🍔"⟩, ⟨2, 2, 20, none, "Food", "🍔"⟩] :=
    ⟨[⟨3, 3, 30, none, "Food", "🍔"⟩, ⟨2, 2, 20, none, "Food", "🍔"⟩,
      ⟨1, 1, 10, none, "Food", "🍔"⟩], by decide, by decide, rfl⟩
  ⟨hv, (c8_recent_listing db8abc 7 2 _ hv).1, (c8_recent_listing db8abc 7 2 _ hv).2.1,
    (c8_recent_listing db8abc 7 2 _ hv).2.2⟩

/-! ### Claim C9 -/

/-- Claim C9: any valid result of `get_user_expense_stats` reports as
total exactly the sum of the user's expense amounts inside the window
`[now - days·86400, now]`, lists the per-category subtotals sorted by
subtotal descending, with every listed row the correct subtotal of an
existing category, and reports a zero total and an empty category list
(not an error) when no expense falls in the window. -/
theorem c9_stats (db : LedgerDB) (uid now days : Nat) (r : StatsResult)
    (h : get_user_expense_stats_valid db uid now days r) :
    r.total_spending
      = ((windowExpenses db uid (now - days * 86400) now).map (fun e => e.amount)).sum ∧
    r.category_spending.Pairwise (fun a b => b.category_total ≤ a.category_total) ∧
    (∀ row ∈ r.category_spending, ∃ c ∈ db.categories,
        row = ⟨c.name, c.icon, catTotal db uid (now - days * 86400) now c.id⟩) ∧
    (windowExpenses db uid (now - days * 86400) now = [] →
        r.total_spending = 0 ∧ r.category_spending = []) := by
  obtain ⟨htot, ⟨l, hperm, hsort, hres⟩, _hdays⟩ := h
  subst hres
  refine ⟨htot, hsort, ?_, ?_⟩
  · intro row hrow
    have hcan : row ∈ canonicalCatStats db uid (now - days * 86400) now :=
      hperm.mem_iff.mp hrow
    obtain ⟨c, hc, hrow_eq⟩ := List.mem_map.mp hcan
    exact ⟨c, (List.mem_filter.mp hc).1, hrow_eq.symm⟩
  · intro hempty
    have hcanon : canonicalCatStats db uid (now - days * 86400) now = [] := by
      simp [canonicalCatStats, activeCategories, hempty]
    constructor
    · rw [htot]
      simp [total_spending, hempty]
    · rw [hcanon] at hperm
      exact hperm.eq_nil

/-- The store of the specification's stats example: $10 Food and $20
Transport inside the window, $5 Food outside it. -/
def db9 : LedgerDB :=
  ⟨[], defaultCategories,
   [⟨1, 1, 10, 1, none, 950000⟩, ⟨2, 1, 20, 2, none, 960000⟩,
    ⟨3, 1, 5, 1, none, 100⟩], 4⟩

/-- The result the source produces on `db9`: total 30, Transport before
Food. -/
def r9 : StatsResult :=
  ⟨30, [⟨"Transport", "🚌", 20⟩, ⟨"Food", "🍔", 10⟩], 1⟩

/-- Witness for C9 at the specification's example: the result is valid
for the query and satisfies every conclusion of the claim. -/
theorem c9_witness :
    get_user_expense_stats_valid db9 1 1000000 1 r9 ∧
    (r9.total_spending
      = ((windowExpenses db9 1 (1000000 - 1 * 86400) 1000000).map (fun e => e.amount)).sum ∧
    r9.category_spending.Pairwise (fun a b => b.category_total ≤ a.category_total) ∧
    (∀ row ∈ r9.category_spending, ∃ c ∈ db9.categories,
        row = ⟨c.name, c.icon, catTotal db9 1 (1000000 - 1 * 86400) 1000000 c.id⟩) ∧
    (windowExpenses db9 1 (1000000 - 1 * 86400) 1000000 = [] →
        r9.total_spending = 0 ∧ r9.category_spending = [])) :=
  have hv : get_user_expense_stats_valid db9 1 1000000 1 r9 :=
    ⟨by decide,
     ⟨[⟨"Transport", "🚌", 20⟩, ⟨"Food", "🍔", 10⟩], by decide, by decide, rfl⟩,
     rfl⟩
  ⟨hv, c9_stats db9 1 1000000 1 r9 hv⟩
